import Mathlib

/-!
Shallow embedding of the SQLite-backed user repository
(`src/models/userModel.mjs` together with the schema of
`src/db/sqliteClient.mjs`).

The durable state of the storage engine is a `Store`: the `users` table, the
`user_deletions_log` table, and the two AUTOINCREMENT counters.  Each
repository operation opens one connection, runs its statements and closes the
connection; here an operation is a pure function from the store (plus the
timestamps the code reads from the clock and the faults the storage engine may
report) to an `OpResult`: the durable store afterwards, the settled promise
(`resolved` / `rejected`, mirroring `resolve`/`reject` in the source), and the
number of connection open/close calls the operation performed.

Faults are injected as `Option Err` parameters, one per fallible statement, in
the position of the `err` argument of the corresponding sqlite3 callback; the
embedded code propagates them exactly as the source does.  The UNIQUE
constraint on `users.email` is part of the store model itself
(`Err.constraint`), since the schema declares `email TEXT NOT NULL UNIQUE` and
the repository does no pre-checking.

Transaction semantics for `deleteUserWithLog`: statements between BEGIN and
COMMIT act on a tentative copy of the store; COMMIT makes it durable, ROLLBACK
(or closing without committing) discards it.  The workflow additionally
records the ordered trace of the statements it issued.
-/

namespace MiApiSqlite

/-- A store-level error, as surfaced by sqlite3 to a statement callback:
either the UNIQUE-constraint violation on `users.email`, or any other
storage failure (injected, carrying an opaque payload so that distinct
failures stay distinguishable). -/
inductive Err where
  | constraint : Err
  | storeFail : Nat → Err
deriving DecidableEq, Repr

/-- A row of the `users` table:
`id INTEGER PRIMARY KEY AUTOINCREMENT, email TEXT NOT NULL UNIQUE,
name TEXT NOT NULL, created_at TEXT NOT NULL`. -/
structure User where
  id : Nat
  email : String
  name : String
  created_at : String
deriving DecidableEq, Repr

/-- A row of the `user_deletions_log` table:
`id INTEGER PRIMARY KEY AUTOINCREMENT, user_id INTEGER NOT NULL,
email TEXT NOT NULL, deleted_at TEXT NOT NULL`. -/
structure LogEntry where
  id : Nat
  user_id : Nat
  email : String
  deleted_at : String
deriving DecidableEq, Repr

/-- The durable state of the SQLite database `data/app.db`. -/
structure Store where
  users : List User
  logs : List LogEntry
  nextUserId : Nat
  nextLogId : Nat
deriving DecidableEq, Repr

/-- The settled state of the Promise an operation returns:
`resolved` / `rejected` mirror `resolve` / `reject` in the source. -/
inductive Outcome (α : Type) where
  | resolved : α → Outcome α
  | rejected : Err → Outcome α
deriving DecidableEq, Repr

/-- What one repository operation produces: the durable store afterwards, the
settled promise, and how many connection open / close calls it made. -/
structure OpResult (α : Type) where
  store : Store
  outcome : Outcome α
  opens : Nat
  closes : Nat
deriving DecidableEq, Repr

/-- Evaluates `SELECT ... WHERE id = ?` via `db.get`: the first matching row,
if any. -/
def rowById (id : Nat) (users : List User) : Option User :=
  users.find? (fun u => u.id == id)

/-- Whether some row of `users` already holds this email (the condition under
which the store's UNIQUE constraint fires). -/
def emailTaken (users : List User) (email : String) : Bool :=
  users.any (fun u => u.email == email)

/-- Embeds `createUser({email, name})`: open a connection, capture
`created_at = new Date().toISOString()` (the `createdAt` argument), run the
INSERT; on error reject, otherwise resolve the new row with `id = this.lastID`;
`db.close()` runs on both branches. -/
def createUser (email name createdAt : String) (fault : Option Err)
    (s : Store) : OpResult User :=
  match fault with
  | some e => { store := s, outcome := .rejected e, opens := 1, closes := 1 }
  | none =>
    if emailTaken s.users email then
      { store := s, outcome := .rejected .constraint, opens := 1, closes := 1 }
    else
      let newUser : User :=
        { id := s.nextUserId, email := email, name := name,
          created_at := createdAt }
      { store := { s with users := s.users ++ [newUser],
                          nextUserId := s.nextUserId + 1 },
        outcome := .resolved newUser, opens := 1, closes := 1 }

/-- Insertion of a user row into a list kept in ascending `id` order. -/
def insertById (u : User) : List User → List User
  | [] => [u]
  | v :: vs => if u.id ≤ v.id then u :: v :: vs else v :: insertById u vs

/-- Evaluates `ORDER BY id ASC` over the `users` table. -/
def sortById : List User → List User
  | [] => []
  | u :: us => insertById u (sortById us)

/-- Embeds `getAllUsers()`: open a connection, run
`SELECT ... FROM users ORDER BY id ASC` via `db.all`; reject on error, resolve
the rows otherwise; `db.close()` on both branches. -/
def getAllUsers (fault : Option Err) (s : Store) : OpResult (List User) :=
  match fault with
  | some e => { store := s, outcome := .rejected e, opens := 1, closes := 1 }
  | none =>
    { store := s, outcome := .resolved (sortById s.users),
      opens := 1, closes := 1 }

/-- Embeds `getUserById(id)`: open a connection, run the SELECT via `db.get`;
reject on error, otherwise resolve `row || null`; `db.close()` on both
branches. -/
def getUserById (id : Nat) (fault : Option Err) (s : Store) :
    OpResult (Option User) :=
  match fault with
  | some e => { store := s, outcome := .rejected e, opens := 1, closes := 1 }
  | none =>
    { store := s, outcome := .resolved (rowById id s.users),
      opens := 1, closes := 1 }

/-- The effect of `UPDATE users SET email = ?, name = ? WHERE id = ?` on the
table contents. -/
def applyUpdate (id : Nat) (email name : String) (users : List User) :
    List User :=
  users.map (fun u =>
    if u.id == id then { u with email := email, name := name } else u)

/-- Embeds `updateUser({id, email, name})`: run the UPDATE (`faultUpdate` is
its callback error; the store itself rejects with the UNIQUE violation when
the new email belongs to a different row that the write would clash with);
on error close then reject; if `this.changes === 0` close then resolve null;
otherwise re-read the row via `db.get` (`faultGet` its callback error), close,
then reject or resolve `row || null`. -/
def updateUser (id : Nat) (email name : String)
    (faultUpdate faultGet : Option Err) (s : Store) : OpResult (Option User) :=
  match faultUpdate with
  | some e => { store := s, outcome := .rejected e, opens := 1, closes := 1 }
  | none =>
    let changes := (s.users.filter (fun u => u.id == id)).length
    if changes != 0 && s.users.any (fun u => u.id != id && u.email == email)
    then
      { store := s, outcome := .rejected .constraint, opens := 1, closes := 1 }
    else if changes == 0 then
      { store := s, outcome := .resolved none, opens := 1, closes := 1 }
    else
      let s1 : Store := { s with users := applyUpdate id email name s.users }
      match faultGet with
      | some e =>
        { store := s1, outcome := .rejected e, opens := 1, closes := 1 }
      | none =>
        { store := s1, outcome := .resolved (rowById id s1.users),
          opens := 1, closes := 1 }

/-- One statement issued by the transactional delete workflow, in the order
the source issues them. -/
inductive Ev where
  | beginTx : Ev
  | fetch : Ev
  | insertLog : Ev
  | deleteRow : Ev
  | commit : Ev
  | rollback : Ev
  | close : Ev
deriving DecidableEq, Repr

/-- The object `deleteUserWithLog` resolves with on success:
`{ deleted: true, user: userRow, deleted_at: deletedAt }`. -/
structure DeleteResult where
  deleted : Bool
  user : User
  deleted_at : String
deriving DecidableEq, Repr

/-- Fault injection for the five fallible statements of the delete
workflow, each in the position of its sqlite3 callback error. -/
structure DelFaults where
  onBegin : Option Err
  onSelect : Option Err
  onInsert : Option Err
  onDelete : Option Err
  onCommit : Option Err
deriving DecidableEq, Repr

/-- Result of the delete workflow: durable store, settled promise (null for
"user not found"), the ordered trace of statements issued, and the
open / close counts. -/
structure DelResult where
  store : Store
  outcome : Outcome (Option DeleteResult)
  trace : List Ev
  opens : Nat
  closes : Nat
deriving DecidableEq, Repr

/-- Embeds `deleteUserWithLog(id)`: BEGIN; SELECT the user (rollback and
resolve null when absent, rollback and reject on error); INSERT the log row
with the fetched `id`/`email` and `deleted_at = new Date().toISOString()`
(the `deletedAt` argument); DELETE the user row; COMMIT.  Every failure after
BEGIN runs ROLLBACK, then closes, then rejects; the COMMIT callback closes
first and then rejects or resolves.  Statements inside the transaction act on
a tentative store that only COMMIT makes durable; ROLLBACK (and closing an
uncommitted transaction) discards it. -/
def deleteUserWithLog (id : Nat) (deletedAt : String) (f : DelFaults)
    (s : Store) : DelResult :=
  match f.onBegin with
  | some e =>
    { store := s, outcome := .rejected e, trace := [.beginTx, .close],
      opens := 1, closes := 1 }
  | none =>
    match f.onSelect with
    | some e =>
      { store := s, outcome := .rejected e,
        trace := [.beginTx, .fetch, .rollback, .close],
        opens := 1, closes := 1 }
    | none =>
      match rowById id s.users with
      | none =>
        { store := s, outcome := .resolved none,
          trace := [.beginTx, .fetch, .rollback, .close],
          opens := 1, closes := 1 }
      | some userRow =>
        match f.onInsert with
        | some e =>
          { store := s, outcome := .rejected e,
            trace := [.beginTx, .fetch, .insertLog, .rollback, .close],
            opens := 1, closes := 1 }
        | none =>
          let entry : LogEntry :=
            { id := s.nextLogId, user_id := userRow.id,
              email := userRow.email, deleted_at := deletedAt }
          let t1 : Store :=
            { s with logs := s.logs ++ [entry], nextLogId := s.nextLogId + 1 }
          match f.onDelete with
          | some e =>
            { store := s, outcome := .rejected e,
              trace := [.beginTx, .fetch, .insertLog, .deleteRow,
                        .rollback, .close],
              opens := 1, closes := 1 }
          | none =>
            let t2 : Store :=
              { t1 with users := t1.users.filter (fun u => u.id != id) }
            match f.onCommit with
            | some e =>
              { store := s, outcome := .rejected e,
                trace := [.beginTx, .fetch, .insertLog, .deleteRow,
                          .commit, .close],
                opens := 1, closes := 1 }
            | none =>
              { store := t2,
                outcome := .resolved (some
                  { deleted := true, user := userRow,
                    deleted_at := deletedAt }),
                trace := [.beginTx, .fetch, .insertLog, .deleteRow,
                          .commit, .close],
                opens := 1, closes := 1 }

/-- A concrete user row, for instantiating the theorems. -/
def sampleUser : User :=
  { id := 1, email := "a@x.com", name := "A", created_at := "t1" }

/-- A concrete store holding `sampleUser`, for instantiating the theorems. -/
def sampleStore : Store :=
  { users := [sampleUser], logs := [], nextUserId := 2, nextLogId := 1 }

/-- Runs a sequence of `createUser` calls (each triple is email, name and the
`created_at` instant the call captures), with no injected store fault, and
collects the store at the end together with the list of successfully created
users in call order. -/
def runCreates : List (String × String × String) → Store → Store × List User
  | [], s => (s, [])
  | r :: rs, s =>
    let out := createUser r.1 r.2.1 r.2.2 none s
    let rest := runCreates rs out.store
    match out.outcome with
    | .resolved u => (rest.1, u :: rest.2)
    | .rejected _ => (rest.1, rest.2)

/-! ### Helper lemmas about the `ORDER BY id ASC` model -/

lemma insertById_perm (u : User) (l : List User) :
    (insertById u l).Perm (u :: l) := by
  induction l with
  | nil => simp [insertById]
  | cons v vs ih =>
    simp only [insertById]
    split
    · exact List.Perm.refl _
    · exact (ih.cons v).trans (List.Perm.swap u v vs)

lemma sortById_perm (l : List User) : (sortById l).Perm l := by
  induction l with
  | nil => simp [sortById]
  | cons u us ih => exact (insertById_perm u (sortById us)).trans (ih.cons u)

lemma insertById_pairwise (u : User) (l : List User)
    (h : l.Pairwise (fun a b => a.id ≤ b.id)) :
    (insertById u l).Pairwise (fun a b => a.id ≤ b.id) := by
  induction l with
  | nil => simp [insertById]
  | cons v vs ih =>
    simp only [insertById]
    split
    · rename_i hle
      refine List.Pairwise.cons ?_ h
      intro x hx
      rcases List.mem_cons.mp hx with hx | hx
      · exact hx ▸ hle
      · exact le_trans hle ((List.pairwise_cons.mp h).1 x hx)
    · rename_i hgt
      have hvu : v.id ≤ u.id := le_of_not_le hgt
      refine List.Pairwise.cons ?_ (ih (List.pairwise_cons.mp h).2)
      intro x hx
      rcases List.mem_cons.mp ((insertById_perm u vs).mem_iff.mp hx) with hx | hx
      · exact hx ▸ hvu
      · exact (List.pairwise_cons.mp h).1 x hx

lemma sortById_pairwise (l : List User) :
    (sortById l).Pairwise (fun a b => a.id ≤ b.id) := by
  induction l with
  | nil => simp [sortById]
  | cons u us ih => exact insertById_pairwise u (sortById us) ih

/-! ### Helper lemmas about row lookup and the uniqueness invariant -/

lemma rowById_none_filter (id : Nat) (l : List User)
    (h : rowById id l = none) : l.filter (fun u => u.id == id) = [] := by
  rw [List.filter_eq_nil_iff]
  exact List.find?_eq_none.mp h

lemma find?_map_id_pres (p : User → Bool) (g : User → User)
    (hp : ∀ v, p (g v) = p v) (l : List User) (u : User)
    (h : l.find? p = some u) : (l.map g).find? p = some (g u) := by
  induction l with
  | nil => exact Option.noConfusion h
  | cons v vs ih =>
    cases hv : p v with
    | true =>
      rw [List.find?_cons_of_pos vs hv] at h
      injection h with h2
      subst h2
      simp only [List.map_cons]
      exact List.find?_cons_of_pos (vs.map g) (by rw [hp]; exact hv)
    | false =>
      have hv' : ¬p v = true := by simp [hv]
      rw [List.find?_cons_of_neg vs hv'] at h
      simp only [List.map_cons]
      rw [List.find?_cons_of_neg (vs.map g) (by simp [hp, hv])]
      exact ih h

lemma rowById_applyUpdate (id : Nat) (email name : String) (u : User)
    (l : List User) (h : rowById id l = some u) :
    rowById id (applyUpdate id email name l) =
      some { u with email := email, name := name } := by
  unfold rowById at h ⊢
  unfold applyUpdate
  have hp : ∀ v : User,
      (((if v.id == id then
          ({ v with email := email, name := name } : User) else v)).id == id)
        = (v.id == id) := by
    intro v
    by_cases hv : (v.id == id) = true <;> simp [hv]
  have hu := List.find?_some h
  have hgu : (if u.id == id then
      ({ u with email := email, name := name } : User) else u) =
      { u with email := email, name := name } := by
    simp only at hu
    rw [hu]
    simp
  have := find?_map_id_pres (fun v => v.id == id)
    (fun v => if v.id == id then
      { v with email := email, name := name } else v) hp l u h
  simp only [hgu] at this
  exact this

lemma rowById_changes_ne_zero (id : Nat) (l : List User) (u : User)
    (h : rowById id l = some u) :
    (l.filter (fun v => v.id == id)).length ≠ 0 := by
  unfold rowById at h
  intro h0
  rw [List.length_eq_zero, List.filter_eq_nil_iff] at h0
  have hu := List.find?_some h
  exact h0 u (List.mem_of_find?_eq_some h) hu

lemma rowById_append_fresh (u : User) (l : List User)
    (h : ∀ v ∈ l, v.id ≠ u.id) : rowById u.id (l ++ [u]) = some u := by
  unfold rowById
  have h1 : l.find? (fun w => w.id == u.id) = none := by
    rw [List.find?_eq_none]
    intro v hv
    simpa using h v hv
  rw [List.find?_append, h1]
  simp [List.find?]

lemma createUser_resolved (email name createdAt : String) (s : Store)
    (u : User) (h : (createUser email name createdAt none s).outcome =
      .resolved u) :
    emailTaken s.users email = false ∧
    u = { id := s.nextUserId, email := email, name := name,
          created_at := createdAt } ∧
    (createUser email name createdAt none s).store.users =
      s.users ++ [u] := by
  by_cases ht : emailTaken s.users email = true
  · simp [createUser, ht] at h
  · have ht' : emailTaken s.users email = false := by
      simpa using ht
    have hout : (createUser email name createdAt none s).outcome =
        .resolved { id := s.nextUserId, email := email, name := name,
                    created_at := createdAt } := by
      simp [createUser, ht']
    have hstore : (createUser email name createdAt none s).store.users =
        s.users ++ [{ id := s.nextUserId, email := email, name := name,
                      created_at := createdAt }] := by
      simp [createUser, ht']
    injection (hout.symm.trans h) with h2
    subst h2
    exact ⟨ht', rfl, hstore⟩

lemma emailTaken_append_mono (l l2 : List User) (e : String)
    (h : emailTaken l e = true) : emailTaken (l ++ l2) e = true := by
  unfold emailTaken at h ⊢
  rw [List.any_append, h]
  rfl

lemma emailTaken_createUser_mono (email name createdAt e : String)
    (f : Option Err) (s : Store) (h : emailTaken s.users e = true) :
    emailTaken (createUser email name createdAt f s).store.users e = true := by
  cases f with
  | some _ => exact h
  | none =>
    by_cases ht : emailTaken s.users email = true
    · have hstore : (createUser email name createdAt none s).store = s := by
        simp [createUser, ht]
      rw [hstore]
      exact h
    · have ht' : emailTaken s.users email = false := by simpa using ht
      have hstore : (createUser email name createdAt none s).store.users =
          s.users ++ [{ id := s.nextUserId, email := email, name := name,
                        created_at := createdAt }] := by
        simp [createUser, ht']
      rw [hstore]
      exact emailTaken_append_mono s.users _ e h

lemma runCreates_fresh (rs : List (String × String × String)) (s : Store) :
    ∀ v ∈ (runCreates rs s).2, emailTaken s.users v.email = false := by
  induction rs generalizing s with
  | nil => intro v hv; exact absurd hv (List.not_mem_nil v)
  | cons r rs ih =>
    intro v hv
    by_contra hvs
    have hvs' : emailTaken s.users v.email = true := by
      simpa using hvs
    have hmono : emailTaken (createUser r.1 r.2.1 r.2.2 none s).store.users
        v.email = true :=
      emailTaken_createUser_mono r.1 r.2.1 r.2.2 v.email none s hvs'
    simp only [runCreates] at hv
    have hv' : v ∈ (runCreates rs
        (createUser r.1 r.2.1 r.2.2 none s).store).2 := by
      cases hout : (createUser r.1 r.2.1 r.2.2 none s).outcome with
      | resolved u =>
        rw [hout] at hv
        rcases List.mem_cons.mp hv with rfl | hv
        · have := (createUser_resolved r.1 r.2.1 r.2.2 s v hout).1
          rw [(createUser_resolved r.1 r.2.1 r.2.2 s v hout).2.1] at hvs'
          simp only [this] at hvs'
          exact Bool.noConfusion hvs'
        · exact hv
      | rejected e =>
        rw [hout] at hv
        exact hv
    have := ih (createUser r.1 r.2.1 r.2.2 none s).store v hv'
    rw [this] at hmono
    exact Bool.noConfusion hmono

lemma runCreates_nodup (rs : List (String × String × String)) (s : Store) :
    ((runCreates rs s).2.map (fun u => u.email)).Nodup := by
  induction rs generalizing s with
  | nil => exact List.nodup_nil
  | cons r rs ih =>
    simp only [runCreates]
    cases hout : (createUser r.1 r.2.1 r.2.2 none s).outcome with
    | rejected e => exact ih _
    | resolved u =>
      simp only [List.map_cons, List.nodup_cons]
      refine ⟨?_, ih _⟩
      intro hmem
      rcases List.mem_map.mp hmem with ⟨v, hv, hve⟩
      have hfresh := runCreates_fresh rs
        (createUser r.1 r.2.1 r.2.2 none s).store v hv
      have hu : emailTaken (createUser r.1 r.2.1 r.2.2 none s).store.users
          u.email = true := by
        rw [(createUser_resolved r.1 r.2.1 r.2.2 s u hout).2.2]
        simp [emailTaken, List.any_append]
      rw [← hve, hfresh] at hu
      exact Bool.noConfusion hu

/-! ### Claim theorems -/

/-- C3: every operation (createUser, getAllUsers, getUserById, updateUser,
deleteUserWithLog) performs exactly one connection-open and exactly one
connection-close call on every exit path — every fault schedule and every
store, normal, absent and error paths alike — so open calls and close calls
balance over any sequence of operations. -/
theorem connection_open_close_balanced
    (email name createdAt deletedAt : String) (id : Nat)
    (f f2 : Option Err) (df : DelFaults) (s : Store) :
    ((createUser email name createdAt f s).opens = 1 ∧
      (createUser email name createdAt f s).closes = 1) ∧
    ((getAllUsers f s).opens = 1 ∧ (getAllUsers f s).closes = 1) ∧
    ((getUserById id f s).opens = 1 ∧ (getUserById id f s).closes = 1) ∧
    ((updateUser id email name f f2 s).opens = 1 ∧
      (updateUser id email name f f2 s).closes = 1) ∧
    ((deleteUserWithLog id deletedAt df s).opens = 1 ∧
      (deleteUserWithLog id deletedAt df s).closes = 1) := by
  refine ⟨?_, ?_, ?_, ?_, ?_⟩
  · cases f with
    | some e => exact ⟨rfl, rfl⟩
    | none =>
      by_cases h : emailTaken s.users email <;> simp [createUser, h]
  · cases f <;> exact ⟨rfl, rfl⟩
  · cases f <;> exact ⟨rfl, rfl⟩
  · cases f with
    | some e => exact ⟨rfl, rfl⟩
    | none =>
      cases f2 <;> simp only [updateUser] <;> split_ifs <;> exact ⟨rfl, rfl⟩
  · rcases df with ⟨b, sel, ins, del, com⟩
    cases b <;> cases sel <;> cases hrow : rowById id s.users <;>
      cases ins <;> cases del <;> cases com <;>
      simp [deleteUserWithLog, hrow]

/-- C10: getAllUsers (with no store fault) resolves exactly the rows of the
users table ordered by ascending id — in particular the empty store resolves
the empty sequence, never an error — and getAllUsers never changes the store,
on the error path included. -/
theorem getAllUsers_sorted_complete (f : Option Err) (s : Store) :
    (getAllUsers f s).store = s ∧
    (getAllUsers none s).outcome = .resolved (sortById s.users) ∧
    (sortById s.users).Perm s.users ∧
    (sortById s.users).Pairwise (fun a b => a.id ≤ b.id) ∧
    (getAllUsers none { s with users := [] }).outcome = .resolved [] := by
  refine ⟨?_, rfl, sortById_perm s.users, sortById_pairwise s.users, rfl⟩
  cases f <;> rfl

/-- C1: every invocation of deleteUserWithLog is atomic: either it resolves
with a deleted user and both effects are durably visible (the user row gone,
exactly its deletion-log entry appended), or — on every other outcome,
failures of the fetch, audit-insert, delete and commit steps and the absent
case included — the durable store is exactly the one from before the call, so
no deletion-log entry survives a failed delete step and the user row is
unchanged on every rolled-back outcome. -/
theorem deleteUserWithLog_atomic (id : Nat) (dAt : String) (f : DelFaults)
    (s : Store) :
    (∃ r : DeleteResult,
        (deleteUserWithLog id dAt f s).outcome = .resolved (some r) ∧
        (deleteUserWithLog id dAt f s).store.users =
          s.users.filter (fun u => u.id != id) ∧
        (deleteUserWithLog id dAt f s).store.logs =
          s.logs ++ [{ id := s.nextLogId, user_id := r.user.id,
                       email := r.user.email, deleted_at := dAt }]) ∨
    ((deleteUserWithLog id dAt f s).store = s ∧
      ∀ r : DeleteResult,
        (deleteUserWithLog id dAt f s).outcome ≠ .resolved (some r)) := by
  rcases f with ⟨b, sel, ins, del, com⟩
  cases b with
  | some e => exact Or.inr ⟨rfl, fun r h => Outcome.noConfusion h⟩
  | none =>
  cases sel with
  | some e => exact Or.inr ⟨rfl, fun r h => Outcome.noConfusion h⟩
  | none =>
  cases hrow : rowById id s.users with
  | none =>
    right
    refine ⟨?_, ?_⟩ <;> simp [deleteUserWithLog, hrow]
  | some u =>
  cases ins with
  | some e =>
    right
    refine ⟨?_, ?_⟩ <;> simp [deleteUserWithLog, hrow]
  | none =>
  cases del with
  | some e =>
    right
    refine ⟨?_, ?_⟩ <;> simp [deleteUserWithLog, hrow]
  | none =>
  cases com with
  | some e =>
    right
    refine ⟨?_, ?_⟩ <;> simp [deleteUserWithLog, hrow]
  | none =>
    left
    refine ⟨{ deleted := true, user := u, deleted_at := dAt }, ?_, ?_, ?_⟩ <;>
      simp [deleteUserWithLog, hrow]

/-- C2: on every successful removal, deleteUserWithLog issued exactly the five
statements begin-transaction, fetch, insert-deletion-log, delete-row, commit
in this order (followed by the connection close), none skipped or reordered,
and exactly one deletion-log entry was appended, whose user_id and email are
the fetched user's id and email and whose deleted_at is the timestamp resolved
to the caller. -/
theorem deleteUserWithLog_order_audit (id : Nat) (dAt : String)
    (f : DelFaults) (s : Store) (r : DeleteResult)
    (h : (deleteUserWithLog id dAt f s).outcome = .resolved (some r)) :
    (deleteUserWithLog id dAt f s).trace =
      [.beginTx, .fetch, .insertLog, .deleteRow, .commit, .close] ∧
    rowById id s.users = some r.user ∧
    r.deleted_at = dAt ∧
    r.deleted = true ∧
    (deleteUserWithLog id dAt f s).store.logs =
      s.logs ++ [{ id := s.nextLogId, user_id := r.user.id,
                   email := r.user.email, deleted_at := r.deleted_at }] := by
  rcases f with ⟨b, sel, ins, del, com⟩
  cases b with
  | some e => exact Outcome.noConfusion h
  | none =>
  cases sel with
  | some e => exact Outcome.noConfusion h
  | none =>
  cases hrow : rowById id s.users with
  | none => simp [deleteUserWithLog, hrow] at h
  | some u =>
  cases ins with
  | some e => simp [deleteUserWithLog, hrow] at h
  | none =>
  cases del with
  | some e => simp [deleteUserWithLog, hrow] at h
  | none =>
  cases com with
  | some e => simp [deleteUserWithLog, hrow] at h
  | none =>
    simp only [deleteUserWithLog, hrow, Outcome.resolved.injEq,
      Option.some.injEq] at h
    subst h
    refine ⟨?_, ?_, rfl, rfl, ?_⟩ <;> simp [deleteUserWithLog, hrow]

/-- C2 witness: on the sample store, deleting user 1 succeeds and the theorem
applies. -/
theorem deleteUserWithLog_order_audit_witness :
    (deleteUserWithLog 1 "t2" ⟨none, none, none, none, none⟩
        sampleStore).outcome =
      .resolved (some { deleted := true, user := sampleUser,
                        deleted_at := "t2" }) ∧
    ((deleteUserWithLog 1 "t2" ⟨none, none, none, none, none⟩
        sampleStore).trace =
      [.beginTx, .fetch, .insertLog, .deleteRow, .commit, .close] ∧
    rowById 1 sampleStore.users =
      some ({ deleted := true, user := sampleUser,
              deleted_at := "t2" } : DeleteResult).user ∧
    ({ deleted := true, user := sampleUser,
       deleted_at := "t2" } : DeleteResult).deleted_at = "t2" ∧
    ({ deleted := true, user := sampleUser,
       deleted_at := "t2" } : DeleteResult).deleted = true ∧
    (deleteUserWithLog 1 "t2" ⟨none, none, none, none, none⟩
        sampleStore).store.logs =
      sampleStore.logs ++ [{ id := sampleStore.nextLogId, user_id := 1,
                             email := "a@x.com", deleted_at := "t2" }]) :=
  ⟨rfl, deleteUserWithLog_order_audit 1 "t2" ⟨none, none, none, none, none⟩
    sampleStore { deleted := true, user := sampleUser, deleted_at := "t2" }
    rfl⟩

/-- C5: when only the commit step fails (the fetched user exists and all
earlier steps succeed), deleteUserWithLog propagates exactly the commit
error — the store's error surfaces verbatim, distinguishable from every other
failure, not mapped to a generic one — issues no rollback, and closes the
connection once, after the commit and before the rejection is observable. -/
theorem commit_failure_propagates (id : Nat) (dAt : String) (e : Err)
    (s : Store) (u : User) (h : rowById id s.users = some u) :
    (deleteUserWithLog id dAt ⟨none, none, none, none, some e⟩ s).outcome =
      .rejected e ∧
    (deleteUserWithLog id dAt ⟨none, none, none, none, some e⟩ s).trace =
      [.beginTx, .fetch, .insertLog, .deleteRow, .commit, .close] ∧
    Ev.rollback ∉
      (deleteUserWithLog id dAt ⟨none, none, none, none, some e⟩ s).trace ∧
    (deleteUserWithLog id dAt ⟨none, none, none, none, some e⟩ s).closes =
      1 := by
  refine ⟨?_, ?_, ?_, ?_⟩ <;> simp [deleteUserWithLog, h]

/-- C5 witness: on the sample store with a commit fault, the theorem applies
to user 1. -/
theorem commit_failure_propagates_witness :
    rowById 1 sampleStore.users = some sampleUser ∧
    ((deleteUserWithLog 1 "t2"
        ⟨none, none, none, none, some (.storeFail 7)⟩ sampleStore).outcome =
      .rejected (.storeFail 7) ∧
    (deleteUserWithLog 1 "t2"
        ⟨none, none, none, none, some (.storeFail 7)⟩ sampleStore).trace =
      [.beginTx, .fetch, .insertLog, .deleteRow, .commit, .close] ∧
    Ev.rollback ∉
      (deleteUserWithLog 1 "t2"
        ⟨none, none, none, none, some (.storeFail 7)⟩ sampleStore).trace ∧
    (deleteUserWithLog 1 "t2"
        ⟨none, none, none, none, some (.storeFail 7)⟩ sampleStore).closes =
      1) :=
  ⟨rfl, commit_failure_propagates 1 "t2" (.storeFail 7) sampleStore sampleUser
    rfl⟩

/-- C4: on an id matching no user row (and a store that operates normally),
getUserById, updateUser and deleteUserWithLog all resolve the absent result
(null), never an error, and leave the store unchanged; deleteUserWithLog
additionally rolls its open transaction back before resolving the absent
result (its trace is begin, fetch, rollback, close).  For updateUser the
re-read fault and for deleteUserWithLog the faults of the never-reached later
steps are arbitrary. -/
theorem notFound_symmetry (id : Nat) (s : Store)
    (h : rowById id s.users = none) :
    ((getUserById id none s).outcome = .resolved none ∧
      (getUserById id none s).store = s) ∧
    (∀ email name f2,
      (updateUser id email name none f2 s).outcome = .resolved none ∧
      (updateUser id email name none f2 s).store = s) ∧
    (∀ dAt ins del com,
      (deleteUserWithLog id dAt ⟨none, none, ins, del, com⟩ s).outcome =
        .resolved none ∧
      (deleteUserWithLog id dAt ⟨none, none, ins, del, com⟩ s).store = s ∧
      (deleteUserWithLog id dAt ⟨none, none, ins, del, com⟩ s).trace =
        [.beginTx, .fetch, .rollback, .close]) := by
  have hfilter : s.users.filter (fun u => u.id == id) = [] :=
    rowById_none_filter id s.users h
  refine ⟨⟨?_, rfl⟩, ?_, ?_⟩
  · simp [getUserById, h]
  · intro email name f2
    cases f2 <;> constructor <;> simp [updateUser, hfilter]
  · intro dAt ins del com
    refine ⟨?_, ?_, ?_⟩ <;> simp [deleteUserWithLog, h]

/-- C4 witness: id 99 matches no row of the sample store; all three
operations resolve null and leave it unchanged, the delete after a
rollback. -/
theorem notFound_symmetry_witness :
    rowById 99 sampleStore.users = none ∧
    ((getUserById 99 none sampleStore).outcome = .resolved none ∧
      (updateUser 99 "b@x.com" "B" none none sampleStore).outcome =
        .resolved none ∧
      (deleteUserWithLog 99 "t9" ⟨none, none, none, none, none⟩
          sampleStore).outcome = .resolved none ∧
      (deleteUserWithLog 99 "t9" ⟨none, none, none, none, none⟩
          sampleStore).store = sampleStore ∧
      (deleteUserWithLog 99 "t9" ⟨none, none, none, none, none⟩
          sampleStore).trace = [.beginTx, .fetch, .rollback, .close]) :=
  ⟨rfl,
    (notFound_symmetry 99 sampleStore rfl).1.1,
    ((notFound_symmetry 99 sampleStore rfl).2.1 "b@x.com" "B" none).1,
    ((notFound_symmetry 99 sampleStore rfl).2.2 "t9" none none none).1,
    ((notFound_symmetry 99 sampleStore rfl).2.2 "t9" none none none).2.1,
    ((notFound_symmetry 99 sampleStore rfl).2.2 "t9" none none none).2.2⟩

/-- C6: updateUser follows the write-then-reread protocol: when the UPDATE
write affects zero rows (no user with that id) it resolves null with no error;
when a row matches (and the write itself succeeds, i.e. no fault and no
uniqueness clash with a different row) it re-reads the row by id and resolves
the re-read row, whose id and created_at are the pre-update values and whose
email and name are the new ones; the store holds exactly the UPDATE's
effect. -/
theorem updateUser_write_then_reread (id : Nat) (email name : String)
    (s : Store) :
    (rowById id s.users = none →
      (updateUser id email name none none s).outcome = .resolved none ∧
      (updateUser id email name none none s).store = s) ∧
    (∀ u, rowById id s.users = some u →
      s.users.any (fun v => v.id != id && v.email == email) = false →
      (updateUser id email name none none s).outcome =
        .resolved (some { id := u.id, email := email, name := name,
                          created_at := u.created_at }) ∧
      (updateUser id email name none none s).store.users =
        applyUpdate id email name s.users) := by
  constructor
  · intro h
    have hfilter : s.users.filter (fun u => u.id == id) = [] :=
      rowById_none_filter id s.users h
    constructor <;> simp [updateUser, hfilter]
  · intro u h hc
    have hne : (s.users.filter (fun v => v.id == id)).length ≠ 0 :=
      rowById_changes_ne_zero id s.users u h
    have hrw := rowById_applyUpdate id email name u s.users h
    constructor <;> simp [updateUser, hne, hc, hrw]

/-- C6 witness: updating user 1 of the sample store re-reads and resolves the
row with the new email and name and the old id and created_at; updating
id 99 resolves null. -/
theorem updateUser_write_then_reread_witness :
    ((rowById 1 sampleStore.users = some sampleUser) ∧
      sampleStore.users.any
        (fun v => v.id != 1 && v.email == "b@x.com") = false) ∧
    (updateUser 1 "b@x.com" "B" none none sampleStore).outcome =
      .resolved (some { id := 1, email := "b@x.com", name := "B",
                        created_at := "t1" }) ∧
    (updateUser 1 "b@x.com" "B" none none sampleStore).store.users =
      applyUpdate 1 "b@x.com" "B" sampleStore.users :=
  ⟨⟨rfl, rfl⟩,
    ((updateUser_write_then_reread 1 "b@x.com" "B" sampleStore).2
      sampleUser rfl rfl).1,
    ((updateUser_write_then_reread 1 "b@x.com" "B" sampleStore).2
      sampleUser rfl rfl).2⟩

/-- C9: when the UPDATE write succeeds (a row matched, no fault, no
uniqueness clash) but the subsequent re-read fails, updateUser rejects with
exactly the re-read error while the store keeps the newly written email and
name: the matched row still carries them after the failure, so an error from
updateUser does not imply the store is unchanged. -/
theorem updateUser_reread_failure (id : Nat) (email name : String) (e : Err)
    (s : Store) (u : User) (h : rowById id s.users = some u)
    (hc : s.users.any (fun v => v.id != id && v.email == email) = false) :
    (updateUser id email name none (some e) s).outcome = .rejected e ∧
    (updateUser id email name none (some e) s).store.users =
      applyUpdate id email name s.users ∧
    rowById id (updateUser id email name none (some e) s).store.users =
      some { id := u.id, email := email, name := name,
             created_at := u.created_at } := by
  have hne : (s.users.filter (fun v => v.id == id)).length ≠ 0 :=
    rowById_changes_ne_zero id s.users u h
  have hrw := rowById_applyUpdate id email name u s.users h
  refine ⟨?_, ?_, ?_⟩ <;> simp [updateUser, hne, hc, hrw]

/-- C9 witness: with the re-read failing on the sample store, updateUser
rejects the re-read error and user 1 keeps the new email and name. -/
theorem updateUser_reread_failure_witness :
    ((rowById 1 sampleStore.users = some sampleUser) ∧
      sampleStore.users.any
        (fun v => v.id != 1 && v.email == "b@x.com") = false) ∧
    ((updateUser 1 "b@x.com" "B" none (some (.storeFail 3))
        sampleStore).outcome = .rejected (.storeFail 3) ∧
      (updateUser 1 "b@x.com" "B" none (some (.storeFail 3))
        sampleStore).store.users =
        applyUpdate 1 "b@x.com" "B" sampleStore.users ∧
      rowById 1 (updateUser 1 "b@x.com" "B" none (some (.storeFail 3))
        sampleStore).store.users =
        some { id := 1, email := "b@x.com", name := "B",
               created_at := "t1" }) :=
  ⟨⟨rfl, rfl⟩, updateUser_reread_failure 1 "b@x.com" "B" (.storeFail 3)
    sampleStore sampleUser rfl rfl⟩

/-- C8: round-trip — on a store whose user ids are all below the next
AUTOINCREMENT value, if createUser succeeds and resolves u then getUserById
u.id on the resulting store resolves exactly u: same email, same name, and
the same created_at that createUser returned. -/
theorem create_getById_roundtrip (email name createdAt : String) (s : Store)
    (hwf : ∀ v ∈ s.users, v.id < s.nextUserId) (u : User)
    (h : (createUser email name createdAt none s).outcome = .resolved u) :
    (getUserById u.id none
      (createUser email name createdAt none s).store).outcome =
      .resolved (some u) ∧
    u.email = email ∧ u.name = name ∧ u.created_at = createdAt := by
  obtain ⟨-, hu, hstore⟩ := createUser_resolved email name createdAt s u h
  have hid : ∀ v ∈ s.users, v.id ≠ u.id := by
    intro v hv
    rw [hu]
    exact Nat.ne_of_lt (hwf v hv)
  have hfind : rowById u.id
      ((createUser email name createdAt none s).store.users) = some u := by
    rw [hstore]
    exact rowById_append_fresh u s.users hid
  refine ⟨?_, ?_, ?_, ?_⟩
  · simp [getUserById, hfind]
  · rw [hu]
  · rw [hu]
  · rw [hu]

/-- C8 witness: creating a second user on the sample store and reading it
back by its id returns the same record. -/
theorem create_getById_roundtrip_witness :
    (∀ v ∈ sampleStore.users, v.id < sampleStore.nextUserId) ∧
    (createUser "b@x.com" "B" "t4" none sampleStore).outcome =
      .resolved { id := 2, email := "b@x.com", name := "B",
                  created_at := "t4" } ∧
    ((getUserById 2 none
        (createUser "b@x.com" "B" "t4" none sampleStore).store).outcome =
      .resolved (some { id := 2, email := "b@x.com", name := "B",
                        created_at := "t4" }) ∧
      ({ id := 2, email := "b@x.com", name := "B",
         created_at := "t4" } : User).email = "b@x.com" ∧
      ({ id := 2, email := "b@x.com", name := "B",
         created_at := "t4" } : User).name = "B" ∧
      ({ id := 2, email := "b@x.com", name := "B",
         created_at := "t4" } : User).created_at = "t4") :=
  ⟨by decide, rfl,
    create_getById_roundtrip "b@x.com" "B" "t4" sampleStore (by decide)
      { id := 2, email := "b@x.com", name := "B", created_at := "t4" } rfl⟩

/-- C7: over any sequence of createUser calls no two successful results share
an email; and a createUser call whose email is already present in the store
rejects with the constraint error that the store's UNIQUE(email) column
raises during the INSERT itself — the embedded repository runs no lookup
before the INSERT — and leaves the store unchanged. -/
theorem createUser_unique_emails (rs : List (String × String × String))
    (s : Store) (email name createdAt : String)
    (h : emailTaken s.users email = true) :
    ((runCreates rs s).2.map (fun u => u.email)).Nodup ∧
    (createUser email name createdAt none s).outcome =
      .rejected .constraint ∧
    (createUser email name createdAt none s).store = s :=
  ⟨runCreates_nodup rs s, by simp [createUser, h], by simp [createUser, h]⟩

/-- C7 witness: a duplicate create on the sample store rejects the constraint
error and changes nothing, and a concrete call sequence yields
pairwise-distinct emails among its successes. -/
theorem createUser_unique_emails_witness :
    emailTaken sampleStore.users "a@x.com" = true ∧
    (((runCreates [("b@x.com", "B", "t4"), ("b@x.com", "C", "t5")]
        sampleStore).2.map (fun u => u.email)).Nodup ∧
      (createUser "a@x.com" "Z" "t9" none sampleStore).outcome =
        .rejected .constraint ∧
      (createUser "a@x.com" "Z" "t9" none sampleStore).store = sampleStore) :=
  ⟨rfl, createUser_unique_emails [("b@x.com", "B", "t4"), ("b@x.com", "C", "t5")]
    sampleStore "a@x.com" "Z" "t9" rfl⟩

end MiApiSqlite
